import Mathlib

/-!
Shallow embedding of the `phuoclehuy/code-challenge` repository:
problem4 (`sum_to_n.ts`), problem5 (`ResourceService`), and problem6
(the live-scoreboard design pseudo-code), together with theorems
checking the natural-language specification against it.
-/

namespace Problem4

/-- Loop of `sum_to_n_b`: `for (let i = 1; i <= absN; i++) sum += i`. -/
def sumUpTo : Nat → Int
  | 0 => 0
  | k + 1 => sumUpTo k + (k + 1 : Nat)

/-- Function `sum_to_n_a` from `src/problem4/sum_to_n.ts`: Gauss formula on `|n|`,
sign re-applied for negative input. Numbers are modelled as exact integers. -/
def sum_to_n_a (n : Int) : Int :=
  let absN : Int := (n.natAbs : Int)
  let sum := (absN * (absN + 1)) / 2
  if n < 0 then -sum else sum

/-- Function `sum_to_n_b` from `src/problem4/sum_to_n.ts`: iterative accumulation
over `1..|n|`, sign re-applied for negative input. -/
def sum_to_n_b (n : Int) : Int :=
  let sum := sumUpTo n.natAbs
  if n < 0 then -sum else sum

/-- Recursion of `sum_to_n_c` restricted to the non-negative arguments it is
actually re-invoked on: `absN + sum_to_n_c(absN - 1)` with base case `0`. -/
def sum_to_n_c_nat : Nat → Int
  | 0 => 0
  | k + 1 => ((k + 1 : Nat) : Int) + sum_to_n_c_nat k

/-- Function `sum_to_n_c` from `src/problem4/sum_to_n.ts`: recursive accumulation on
`|n|`, sign re-applied for negative input. -/
def sum_to_n_c (n : Int) : Int :=
  let absN := n.natAbs
  if absN = 0 then 0
  else
    let sum := sum_to_n_c_nat absN
    if n < 0 then -sum else sum

theorem sumUpTo_mul_two (k : Nat) : sumUpTo k * 2 = (k : Int) * (k + 1) := by
  induction k with
  | zero => simp [sumUpTo]
  | succ k ih =>
      simp only [sumUpTo]
      push_cast
      push_cast at ih
      linear_combination ih

theorem sumUpTo_closed (k : Nat) : sumUpTo k = ((k : Int) * (k + 1)) / 2 := by
  have h := sumUpTo_mul_two k
  omega

theorem sum_to_n_c_nat_eq_sumUpTo (k : Nat) : sum_to_n_c_nat k = sumUpTo k := by
  induction k with
  | zero => rfl
  | succ k ih => simp [sum_to_n_c_nat, sumUpTo, ih]; ring

theorem sum_to_n_b_eq_a (n : Int) : sum_to_n_b n = sum_to_n_a n := by
  simp [sum_to_n_a, sum_to_n_b, sumUpTo_closed]

theorem sum_to_n_c_eq_a (n : Int) : sum_to_n_c n = sum_to_n_a n := by
  unfold sum_to_n_a sum_to_n_c
  rcases Nat.eq_zero_or_pos n.natAbs with h0 | hpos
  · have hn : n = 0 := Int.natAbs_eq_zero.mp h0
    subst hn
    simp
  · have hne : n.natAbs ≠ 0 := Nat.pos_iff_ne_zero.mp hpos
    simp only [hne, if_false]
    rw [sum_to_n_c_nat_eq_sumUpTo, sumUpTo_closed]

end Problem4

/-- C9: the three sum-to-n implementations agree for every integer `n`, and
each equals `n*(n+1)/2` for `n ≥ 0` and `-(|n|*(|n|+1)/2)` for `n < 0`. -/
theorem sum_to_n_implementations_equivalent (n : Int) :
    Problem4.sum_to_n_a n = Problem4.sum_to_n_b n ∧
    Problem4.sum_to_n_b n = Problem4.sum_to_n_c n ∧
    Problem4.sum_to_n_a n =
      (if n < 0 then -(((n.natAbs : Int) * ((n.natAbs : Int) + 1)) / 2)
       else n * (n + 1) / 2) := by
  refine ⟨(Problem4.sum_to_n_b_eq_a n).symm, ?_, ?_⟩
  · rw [Problem4.sum_to_n_b_eq_a, Problem4.sum_to_n_c_eq_a]
  · unfold Problem4.sum_to_n_a
    rcases lt_or_le n 0 with hneg | hpos
    · simp [hneg]
    · have habs : ((n.natAbs : Int)) = n := Int.natAbs_of_nonneg hpos
      simp [not_lt.mpr hpos, habs]

namespace Problem6

/-- Model of the external keyed MAC (`HMAC_SHA256(secret, msg)`) used in
`src/problem6/README.md`: an injective keyed tagging function standing in for
the real HMAC (standard perfect-MAC idealization). -/
def hmacSha256 (secret msg : String) : String :=
  "hmac:" ++ secret ++ ":" ++ msg

/-- An action token as issued by `POST /actions/initialize`
(`src/problem6/README.md`): `timestamp` is the issue time in ms. -/
structure ActionToken where
  actionId : String
  userId : String
  actionTy : String
  timestamp : Int
  signature : String
  expectedScore : Int
deriving DecidableEq, Repr

/-- Signature generation from the README:
`HMAC_SHA256(secret_key, actionId + userId + actionType + timestamp)`. -/
def expectedSignature (secret : String) (t : ActionToken) : String :=
  hmacSha256 secret (t.actionId ++ t.userId ++ t.actionTy ++ toString t.timestamp)

/-- Function `verifySignature(submittedSignature, expectedSignature)` from the README. -/
def verifySignature (submitted expected : String) : Bool :=
  submitted = expected

/-- Check `isValidSignature` from the README validation block. -/
def isValidSignature (secret : String) (t : ActionToken) : Bool :=
  verifySignature t.signature (expectedSignature secret t)

/-- Check `isNotExpired = (currentTime - timestamp) < 600000` from the README. -/
def isNotExpired (now : Int) (t : ActionToken) : Bool :=
  now - t.timestamp < 600000

/-- Consumed-marker store: the `action:<actionId>` keys Redis holds, each with
the absolute time (ms) at which its TTL expires. -/
structure RedisState where
  used : List (String × Int)
deriving Repr

/-- The empty marker store. -/
def RedisState.empty : RedisState := ⟨[]⟩

/-- Marker lookup: the TTL-expiry time of `key`, if a marker is present. -/
def getMarker (st : RedisState) (key : String) : Option Int :=
  (st.used.find? (fun p => p.1 = key)).map (fun p => p.2)

/-- Read `redis.exists(key)` at time `now`: the marker is present and its TTL has
not yet elapsed. -/
def redisExists (st : RedisState) (key : String) (now : Int) : Bool :=
  match getMarker st key with
  | some e => now < e
  | none => false

/-- TTL of the consumed marker: `redis.setex(..., 3600, 'used')`, in ms. -/
def markerTTL : Int := 3600000

/-- Write `redis.setex('action:' + actionId, 3600, 'used')` at time `now`. -/
def setUsed (st : RedisState) (key : String) (now : Int) : RedisState :=
  ⟨(key, now + markerTTL) :: st.used⟩

/-- The consumed-marker key for a token: `action:<actionId>`. -/
def actionKey (actionId : String) : String :=
  "action:" ++ actionId

/-- Error taxonomy of the validator. Modelled from the spec: the README's
validation block only distinguishes success from failure; the spec names the
failures `INVALID_SIGNATURE`, `EXPIRED_ACTION`, `REPLAYED_ACTION`. -/
inductive ActionError where
  | INVALID_SIGNATURE
  | EXPIRED_ACTION
  | REPLAYED_ACTION
deriving DecidableEq, Repr

/-- Function `validate(submittedToken)` at time `now` against marker store `st`:
the three checks of the README validation block (signature, expiry via
`(currentTime - timestamp) < 600000`, consumed marker via `redis.exists`),
with the consumed marker set by `redis.setex` on success. Error attribution
is modelled from the spec: checks run in order, each short-circuiting on
failure. Returns the validated `(userId, expectedScore)` on success together
with the updated marker store. -/
def validate (secret : String) (st : RedisState) (now : Int) (t : ActionToken) :
    Except ActionError (String × Int) × RedisState :=
  if ¬ isValidSignature secret t then
    (Except.error ActionError.INVALID_SIGNATURE, st)
  else if ¬ isNotExpired now t then
    (Except.error ActionError.EXPIRED_ACTION, st)
  else if redisExists st (actionKey t.actionId) now then
    (Except.error ActionError.REPLAYED_ACTION, st)
  else
    (Except.ok (t.userId, t.expectedScore), setUsed st (actionKey t.actionId) now)

/-- Whether a validation result is a success. -/
def isOkResult : Except ActionError (String × Int) → Bool
  | Except.ok _ => true
  | Except.error _ => false

/-- Run a sequence of submissions `(time, token)` through `validate`,
threading the marker store, and record each submission with its result. -/
def runValidates (secret : String) (st : RedisState) :
    List (Int × ActionToken) →
    List ((Int × ActionToken) × Except ActionError (String × Int))
  | [] => []
  | (t, tok) :: rest =>
      let r := validate secret st t tok
      ((t, tok), r.1) :: runValidates secret r.2 rest

/-- Number of successful validations for a given `actionId` in a run; each
success is exactly the creation of one `ScoreTransaction`. -/
def okCount (a : String)
    (l : List ((Int × ActionToken) × Except ActionError (String × Int))) : Nat :=
  (l.filter (fun x => x.1.2.actionId = a && isOkResult x.2)).length

theorem getMarker_setUsed_self (st : RedisState) (k : String) (now : Int) :
    getMarker (setUsed st k now) k = some (now + markerTTL) := by
  simp [getMarker, setUsed, List.find?]

theorem getMarker_setUsed_other (st : RedisState) (k k' : String) (now : Int)
    (h : k' ≠ k) : getMarker (setUsed st k now) k' = getMarker st k' := by
  simp [getMarker, setUsed, List.find?, h.symm]

theorem actionKey_injective {a b : String} (h : actionKey a = actionKey b) :
    a = b := by
  unfold actionKey at h
  have hd : ("action:" ++ a).data = ("action:" ++ b).data := by rw [h]
  simp only [String.data_append] at hd
  apply String.ext
  exact List.append_cancel_left hd

/-- Case analysis of one `validate` call: either it succeeds, in which case
all three checks passed and the marker was set, or it fails and the marker
store is untouched. -/
theorem validate_spec (secret : String) (st : RedisState) (now : Int)
    (t : ActionToken) :
    (isOkResult (validate secret st now t).1 = true ∧
     isValidSignature secret t = true ∧ isNotExpired now t = true ∧
     redisExists st (actionKey t.actionId) now = false ∧
     (validate secret st now t).2 = setUsed st (actionKey t.actionId) now) ∨
    (isOkResult (validate secret st now t).1 = false ∧
     (validate secret st now t).2 = st) := by
  unfold validate
  by_cases h1 : isValidSignature secret t
  · by_cases h2 : isNotExpired now t
    · by_cases h3 : redisExists st (actionKey t.actionId) now
      · right; simp [h1, h2, h3, isOkResult]
      · left; simp [h1, h2, h3, isOkResult]
    · right; simp [h1, h2, isOkResult]
  · right; simp [h1, isOkResult]

theorem runValidates_cons (secret : String) (st : RedisState) (t : Int)
    (tok : ActionToken) (rest : List (Int × ActionToken)) :
    runValidates secret st ((t, tok) :: rest) =
      ((t, tok), (validate secret st t tok).1) ::
        runValidates secret (validate secret st t tok).2 rest := rfl

theorem okCount_cons (a : String)
    (x : (Int × ActionToken) × Except ActionError (String × Int))
    (l : List ((Int × ActionToken) × Except ActionError (String × Int))) :
    okCount a (x :: l) =
      (if x.1.2.actionId = a && isOkResult x.2 then 1 else 0) + okCount a l := by
  simp only [okCount, List.filter_cons]
  split
  · simp [Nat.add_comm]
  · simp

theorem no_success_with_live_marker (secret a : String) (ts : Int) :
    ∀ (subs : List (Int × ActionToken)) (st : RedisState) (e : Int),
      getMarker st (actionKey a) = some e →
      ts + 600000 ≤ e →
      (∀ p ∈ subs, p.2.actionId = a → p.2.timestamp = ts) →
      okCount a (runValidates secret st subs) = 0 := by
  intro subs
  induction subs with
  | nil => intro st e _ _ _; simp [runValidates, okCount]
  | cons hd rest ih =>
      intro st e hmark hle hstamp
      obtain ⟨t, tok⟩ := hd
      have hstamp' : ∀ p ∈ rest, p.2.actionId = a → p.2.timestamp = ts := by
        intro p hp hpa
        exact hstamp p (List.mem_cons_of_mem _ hp) hpa
      rw [runValidates_cons, okCount_cons]
      rcases validate_spec secret st t tok with
        ⟨hok, _, hfr, hne, hst2⟩ | ⟨hok, hst2⟩
      · by_cases ha : tok.actionId = a
        · exfalso
          have hts : tok.timestamp = ts :=
            hstamp (t, tok) (List.mem_cons_self _ _) ha
          have hfr' : t - tok.timestamp < 600000 := by
            simpa [isNotExpired] using hfr
          have hex : redisExists st (actionKey tok.actionId) t = true := by
            rw [ha]
            simp only [redisExists, hmark]
            simp only [decide_eq_true_eq]
            omega
          rw [hne] at hex
          exact Bool.noConfusion hex
        · have hkey : actionKey a ≠ actionKey tok.actionId := by
            intro h
            exact ha (actionKey_injective h).symm
          have hm' : getMarker (validate secret st t tok).2 (actionKey a) =
              some e := by
            rw [hst2, getMarker_setUsed_other _ _ _ _ hkey, hmark]
          simp only [ha, decide_eq_true_eq, Bool.false_and, if_neg,
            Bool.and_eq_true, false_and, ite_false]
          have := ih (validate secret st t tok).2 e hm' hle hstamp'
          simpa using this
      · have hm' : getMarker (validate secret st t tok).2 (actionKey a) =
            some e := by rw [hst2]; exact hmark
        have := ih (validate secret st t tok).2 e hm' hle hstamp'
        simp [hok, this]

theorem okCount_le_one (secret a : String) :
    ∀ (subs : List (Int × ActionToken)) (st : RedisState),
      (∀ p ∈ subs, ∀ q ∈ subs, p.2.actionId = a → q.2.actionId = a →
        p.2.timestamp = q.2.timestamp) →
      (∀ p ∈ subs, p.2.timestamp ≤ p.1) →
      okCount a (runValidates secret st subs) ≤ 1 := by
  intro subs
  induction subs with
  | nil => intro st _ _; simp [runValidates, okCount]
  | cons hd rest ih =>
      intro st hsame hiss
      obtain ⟨t, tok⟩ := hd
      have hsame' : ∀ p ∈ rest, ∀ q ∈ rest, p.2.actionId = a →
          q.2.actionId = a → p.2.timestamp = q.2.timestamp := by
        intro p hp q hq hpa hqa
        exact hsame p (List.mem_cons_of_mem _ hp) q (List.mem_cons_of_mem _ hq)
          hpa hqa
      have hiss' : ∀ p ∈ rest, p.2.timestamp ≤ p.1 := by
        intro p hp
        exact hiss p (List.mem_cons_of_mem _ hp)
      rw [runValidates_cons, okCount_cons]
      rcases validate_spec secret st t tok with
        ⟨hok, _, _, _, hst2⟩ | ⟨hok, _⟩
      · by_cases ha : tok.actionId = a
        · have hts : tok.timestamp ≤ t := hiss (t, tok) (List.mem_cons_self _ _)
          have hm' : getMarker (validate secret st t tok).2 (actionKey a) =
              some (t + markerTTL) := by
            rw [hst2, ← ha, getMarker_setUsed_self]
          have hstampRest : ∀ p ∈ rest, p.2.actionId = a →
              p.2.timestamp = tok.timestamp := by
            intro p hp hpa
            exact hsame p (List.mem_cons_of_mem _ hp) (t, tok)
              (List.mem_cons_self _ _) hpa ha
          have hzero := no_success_with_live_marker secret a tok.timestamp rest
            (validate secret st t tok).2 (t + markerTTL) hm'
            (by unfold markerTTL; omega) hstampRest
          simp [ha, hok, hzero]
        · simp only [ha, decide_eq_true_eq, Bool.false_and, false_and,
            ite_false]
          have := ih (validate secret st t tok).2 hsame' hiss'
          simpa using this
      · simp only [hok, Bool.and_false, ite_false]
        have := ih (validate secret st t tok).2 hsame' hiss'
        simpa using this

/-- A concrete well-signed token used by the witnesses. -/
def tok1 : ActionToken :=
  { actionId := "a1", userId := "u1", actionTy := "QUEST", timestamp := 0,
    signature := hmacSha256 "k" ("a1" ++ "u1" ++ "QUEST" ++ toString (0 : Int)),
    expectedScore := 100 }

/-- A concrete token whose signature does not verify under secret "k". -/
def tokBad : ActionToken :=
  { actionId := "a2", userId := "u2", actionTy := "QUEST", timestamp := 0,
    signature := "forged", expectedScore := 100 }

/-- Local state of one in-flight submission of an already-signed, unexpired
token: its program counter (0 = about to run the `redis.exists` check,
1 = about to run the conditional `redis.setex` + award, 2 = done), the local
`isNotUsed` boolean, and whether the submission was awarded a score. -/
structure ReqState where
  pc : Nat
  notUsed : Bool
  succeeded : Bool
deriving Repr, DecidableEq

/-- A submission that has not run any step yet. -/
def initReq : ReqState := { pc := 0, notUsed := false, succeeded := false }

/-- Shared marker store plus the local states of two concurrent submissions
of the same token. -/
structure ConcState where
  redis : RedisState
  req1 : ReqState
  req2 : ReqState

/-- One micro-step of the README realization, in which
`isNotUsed = !await redis.exists('action:' + actionId)` is a separate read
and the later `redis.setex('action:' + actionId, 3600, 'used')` a separate
write. -/
def ctmStep (key : String) (now : Int) (redis : RedisState) (r : ReqState) :
    RedisState × ReqState :=
  match r.pc with
  | 0 => (redis, { r with pc := 1, notUsed := !(redisExists redis key now) })
  | 1 =>
      if r.notUsed then
        (setUsed redis key now, { r with pc := 2, succeeded := true })
      else
        (redis, { r with pc := 2, succeeded := false })
  | _ => (redis, r)

/-- Run the two check-then-mark submissions under a schedule: `true` lets
submission 1 take its next micro-step, `false` submission 2. -/
def ctmRun (key : String) (now : Int) : List Bool → ConcState → ConcState
  | [], s => s
  | b :: rest, s =>
      if b then
        let p := ctmStep key now s.redis s.req1
        ctmRun key now rest { redis := p.1, req1 := p.2, req2 := s.req2 }
      else
        let p := ctmStep key now s.redis s.req2
        ctmRun key now rest { redis := p.1, req1 := s.req1, req2 := p.2 }

/-- One step of the atomic test-and-set realization the spec requires: the
consumed check and the marking are a single read-modify-write. -/
def tasStep (key : String) (now : Int) (redis : RedisState) (r : ReqState) :
    RedisState × ReqState :=
  match r.pc with
  | 0 =>
      if redisExists redis key now then
        (redis, { r with pc := 2, succeeded := false })
      else
        (setUsed redis key now, { r with pc := 2, succeeded := true })
  | _ => (redis, r)

/-- Run the two atomic test-and-set submissions under a schedule. -/
def tasRun (key : String) (now : Int) : List Bool → ConcState → ConcState
  | [], s => s
  | b :: rest, s =>
      if b then
        let p := tasStep key now s.redis s.req1
        tasRun key now rest { redis := p.1, req1 := p.2, req2 := s.req2 }
      else
        let p := tasStep key now s.redis s.req2
        tasRun key now rest { redis := p.1, req1 := s.req1, req2 := p.2 }

/-- How many of the two submissions were awarded a score (each award is the
creation of one `ScoreTransaction`). -/
def succCount (s : ConcState) : Nat :=
  (if s.req1.succeeded then 1 else 0) + (if s.req2.succeeded then 1 else 0)

/-- Both submissions start fresh against marker store `rd`. -/
def concInit (rd : RedisState) : ConcState :=
  { redis := rd, req1 := initReq, req2 := initReq }

/-- Invariant of the atomic runs: at most one success so far, and once a
success happened the marker is visibly set. -/
def tasInv (key : String) (now : Int) (s : ConcState) : Prop :=
  succCount s ≤ 1 ∧ (1 ≤ succCount s → redisExists s.redis key now = true)

theorem redisExists_setUsed_self (st : RedisState) (k : String) (now : Int) :
    redisExists (setUsed st k now) k now = true := by
  simp only [redisExists, getMarker_setUsed_self]
  simp only [decide_eq_true_eq]
  unfold markerTTL
  omega

theorem tasStep_preserves (key : String) (now : Int) (redis : RedisState)
    (r other : ReqState) (h : tasInv key now { redis := redis, req1 := r, req2 := other }) :
    tasInv key now
      { redis := (tasStep key now redis r).1,
        req1 := (tasStep key now redis r).2, req2 := other } := by
  obtain ⟨hle, hmark⟩ := h
  unfold tasStep
  match hpc : r.pc with
  | 0 =>
      by_cases hex : redisExists redis key now = true
      · constructor
        · simp only [hex, if_true]
          simp only [succCount] at hle ⊢
          simp only [if_neg (by simp : ¬ false = true)]
          omega
        · intro _
          simp only [hex, if_true]
      · have hnos : 1 ≤ succCount { redis := redis, req1 := r, req2 := other } →
            False := fun h1 => hex (hmark h1)
        have hr : r.succeeded = false := by
          by_contra hc
          apply hnos
          simp only [succCount, Bool.not_eq_false] at hc ⊢
          simp [hc]
        have hother : other.succeeded = false := by
          by_contra hc
          apply hnos
          simp only [succCount, Bool.not_eq_false] at hc ⊢
          simp [hc]
        constructor
        · simp [hex, succCount, hother]
        · intro _
          simp only [hex, if_false, Bool.false_eq_true]
          exact redisExists_setUsed_self redis key now
  | n + 1 =>
      exact ⟨hle, hmark⟩

theorem tasStep_preserves_swap (key : String) (now : Int) (redis : RedisState)
    (r other : ReqState)
    (h : tasInv key now { redis := redis, req1 := other, req2 := r }) :
    tasInv key now
      { redis := (tasStep key now redis r).1,
        req1 := other, req2 := (tasStep key now redis r).2 } := by
  have hswap : tasInv key now { redis := redis, req1 := r, req2 := other } := by
    obtain ⟨hle, hmark⟩ := h
    refine ⟨?_, ?_⟩ <;> simp only [succCount] at hle hmark ⊢
    · omega
    · intro h1; exact hmark (by omega)
  have := tasStep_preserves key now redis r other hswap
  obtain ⟨hle, hmark⟩ := this
  refine ⟨?_, ?_⟩ <;> simp only [succCount] at hle hmark ⊢
  · omega
  · intro h1; exact hmark (by omega)

theorem tasRun_inv (key : String) (now : Int) :
    ∀ (sched : List Bool) (s : ConcState), tasInv key now s →
      tasInv key now (tasRun key now sched s) := by
  intro sched
  induction sched with
  | nil => intro s hs; exact hs
  | cons b rest ih =>
      intro s hs
      unfold tasRun
      by_cases hb : b
      · simp only [hb, if_true]
        exact ih _ (tasStep_preserves key now s.redis s.req1 s.req2 hs)
      · simp only [hb, if_false]
        exact ih _ (tasStep_preserves_swap key now s.redis s.req2 s.req1 hs)

/-- If a validly-signed token is past the cutoff, `validate` reports
`EXPIRED_ACTION`. -/
theorem validate_expired_of_cutoff (secret : String) (st : RedisState)
    (tok : ActionToken) (hsig : isValidSignature secret tok = true)
    (n : Int) (hn : tok.timestamp + 600000 ≤ n) :
    (validate secret st n tok).1 = Except.error ActionError.EXPIRED_ACTION := by
  have h2 : isNotExpired n tok = false := by
    simp only [isNotExpired, decide_eq_false_iff_not]
    omega
  unfold validate
  simp [hsig, h2]

/-- Before the cutoff, `validate` never reports `EXPIRED_ACTION`. -/
theorem validate_not_expired_of_fresh (secret : String) (st : RedisState)
    (tok : ActionToken) (n : Int) (hn : n < tok.timestamp + 600000) :
    (validate secret st n tok).1 ≠ Except.error ActionError.EXPIRED_ACTION := by
  have h2 : isNotExpired n tok = true := by
    simp only [isNotExpired, decide_eq_true_eq]
    omega
  unfold validate
  by_cases h1 : isValidSignature secret tok
  · by_cases h3 : redisExists st (actionKey tok.actionId) n
    · simp [h1, h2, h3]
    · simp [h1, h2, h3]
  · simp [h1]

end Problem6

/-- C2 (code evaluated at the failing input): the README realization of the
consumed check is a separate `redis.exists` read followed by a later
`redis.setex` write, and under the interleaving check1, check2, mark1, mark2
of two concurrent submissions of the same token BOTH are awarded a score
(two `ScoreTransaction`s for one `actionId`); the single atomic
test-and-set the spec demands allows at most one success under every
schedule. -/
theorem check_then_mark_double_success :
    (Problem6.ctmRun "action:a1" 0 [true, false, true, false]
        (Problem6.concInit Problem6.RedisState.empty)).req1.succeeded = true ∧
    (Problem6.ctmRun "action:a1" 0 [true, false, true, false]
        (Problem6.concInit Problem6.RedisState.empty)).req2.succeeded = true ∧
    ∀ (sched : List Bool) (rd : Problem6.RedisState),
      Problem6.succCount (Problem6.tasRun "action:a1" 0 sched
        (Problem6.concInit rd)) ≤ 1 := by
  refine ⟨rfl, rfl, ?_⟩
  intro sched rd
  have h := Problem6.tasRun_inv "action:a1" 0 sched (Problem6.concInit rd)
    ⟨by simp [Problem6.succCount, Problem6.concInit, Problem6.initReq],
     by intro h1; simp [Problem6.succCount, Problem6.concInit,
       Problem6.initReq] at h1⟩
  exact h.1

/-- C3 counterexample: the claim says `validate` fails on expiry exactly when
`now > expiresAt`, but the code checks `(currentTime - timestamp) < 600000`,
which already fails at `now = expiresAt` itself: for the concrete token
issued at 0, a submission at `now = 600000 = expiresAt` returns
`EXPIRED_ACTION` even though `now > expiresAt` is false. -/
theorem validate_expiry_boundary_counterexample :
    (Problem6.validate "k" Problem6.RedisState.empty 600000 Problem6.tok1).1 =
      Except.error Problem6.ActionError.EXPIRED_ACTION ∧
    ¬((600000 : Int) > Problem6.tok1.timestamp + 600000) := by
  constructor
  · rfl
  · decide

/-- C3 (amended): for a validly-signed token, `validate` fails with
`EXPIRED_ACTION` exactly when `now ≥ expiresAt` (with
`expiresAt = issuedAt + 600000` ms); in particular a submission at
`now = expiresAt + 1` returns `EXPIRED_ACTION` and a submission at
`now = expiresAt - 1` does not fail on expiry. -/
theorem validate_expiry_boundary (secret : String) (st : Problem6.RedisState)
    (now : Int) (tok : Problem6.ActionToken)
    (hsig : Problem6.isValidSignature secret tok = true) :
    ((Problem6.validate secret st now tok).1 =
        Except.error Problem6.ActionError.EXPIRED_ACTION ↔
      tok.timestamp + 600000 ≤ now) ∧
    (Problem6.validate secret st (tok.timestamp + 600001) tok).1 =
      Except.error Problem6.ActionError.EXPIRED_ACTION ∧
    (Problem6.validate secret st (tok.timestamp + 599999) tok).1 ≠
      Except.error Problem6.ActionError.EXPIRED_ACTION := by
  refine ⟨⟨?_, ?_⟩, ?_, ?_⟩
  · intro h
    by_contra hc
    exact Problem6.validate_not_expired_of_fresh secret st tok now
      (by omega) h
  · intro h
    exact Problem6.validate_expired_of_cutoff secret st tok hsig now h
  · exact Problem6.validate_expired_of_cutoff secret st tok hsig _ (by omega)
  · exact Problem6.validate_not_expired_of_fresh secret st tok _ (by omega)

/-- Witness for the amended C3 at a concrete token and time. -/
theorem validate_expiry_boundary_witness :
    ((Problem6.validate "k" Problem6.RedisState.empty 600000
        Problem6.tok1).1 =
        Except.error Problem6.ActionError.EXPIRED_ACTION ↔
      Problem6.tok1.timestamp + 600000 ≤ 600000) ∧
    (Problem6.validate "k" Problem6.RedisState.empty
        (Problem6.tok1.timestamp + 600001) Problem6.tok1).1 =
      Except.error Problem6.ActionError.EXPIRED_ACTION ∧
    (Problem6.validate "k" Problem6.RedisState.empty
        (Problem6.tok1.timestamp + 599999) Problem6.tok1).1 ≠
      Except.error Problem6.ActionError.EXPIRED_ACTION :=
  validate_expiry_boundary "k" Problem6.RedisState.empty 600000 Problem6.tok1
    (by decide)

/-- C8: the three checks of `validate` run in the fixed short-circuiting
order signature, expiry, consumed-marker: a wrongly-signed token always gets
`INVALID_SIGNATURE` (whatever its expiry or consumption status), a
validly-signed expired token gets `EXPIRED_ACTION` (whether consumed or
not), and only a validly-signed, unexpired, already-consumed token gets
`REPLAYED_ACTION`. -/
theorem validate_check_order (secret : String) (st : Problem6.RedisState)
    (now : Int) (tok : Problem6.ActionToken) :
    (Problem6.isValidSignature secret tok = false →
      (Problem6.validate secret st now tok).1 =
        Except.error Problem6.ActionError.INVALID_SIGNATURE) ∧
    (Problem6.isValidSignature secret tok = true →
      Problem6.isNotExpired now tok = false →
      (Problem6.validate secret st now tok).1 =
        Except.error Problem6.ActionError.EXPIRED_ACTION) ∧
    (Problem6.isValidSignature secret tok = true →
      Problem6.isNotExpired now tok = true →
      Problem6.redisExists st (Problem6.actionKey tok.actionId) now = true →
      (Problem6.validate secret st now tok).1 =
        Except.error Problem6.ActionError.REPLAYED_ACTION) := by
  refine ⟨?_, ?_, ?_⟩
  · intro h1
    unfold Problem6.validate
    simp [h1]
  · intro h1 h2
    unfold Problem6.validate
    simp [h1, h2]
  · intro h1 h2 h3
    unfold Problem6.validate
    simp [h1, h2, h3]

/-- Witness for C8: a concrete token that is both expired and wrongly signed
returns `INVALID_SIGNATURE`, not `EXPIRED_ACTION`. -/
theorem validate_check_order_witness :
    Problem6.isValidSignature "k" Problem6.tokBad = false ∧
    Problem6.isNotExpired 10000000 Problem6.tokBad = false ∧
    (Problem6.validate "k" Problem6.RedisState.empty 10000000
        Problem6.tokBad).1 =
      Except.error Problem6.ActionError.INVALID_SIGNATURE :=
  ⟨by decide, by decide,
    (validate_check_order "k" Problem6.RedisState.empty 10000000
        Problem6.tokBad).1 (by decide)⟩

namespace Problem6

/-- A recorded score transaction (the score fields of the README audit-log
schema). -/
structure ScoreTransaction where
  userId : String
  actionId : String
  scoreBefore : Int
  scoreAfter : Int
  scoreAwarded : Int
deriving Repr, DecidableEq

/-- Score of a member of the `leaderboard:global` sorted set (0 if absent,
matching `zincrby` semantics of treating a missing member as 0). -/
def zscore : List (String × Int) → String → Int
  | [], _ => 0
  | p :: rest, u => if p.1 = u then p.2 else zscore rest u

/-- Write a member's score in the sorted set, inserting it if absent. -/
def zset : List (String × Int) → String → Int → List (String × Int)
  | [], u, v => [(u, v)]
  | p :: rest, u, v => if p.1 = u then (u, v) :: rest else p :: zset rest u v

/-- Operation `redis.zincrby('leaderboard:global', scoreToAdd, userId)` from
`updateUserScore`: atomic increment, returning the new score and the updated
sorted set. -/
def zincrby (board : List (String × Int)) (inc : Int) (u : String) :
    Int × List (String × Int) :=
  let newScore := zscore board u + inc
  (newScore, zset board u newScore)

/-- ScoreLedger state: the sorted-set scores plus the append-only audit log
of transactions. -/
structure LedgerState where
  board : List (String × Int)
  transactions : List ScoreTransaction
deriving Repr, DecidableEq

/-- The ledger before any transaction. -/
def LedgerState.empty : LedgerState := ⟨[], []⟩

/-- Operation `apply(userId, scoreAwarded, actionId)`: the atomic `zincrby` of
`updateUserScore` together with the recording of one audit transaction. -/
def applyScore (st : LedgerState) (u : String) (amt : Int) (aid : String) :
    LedgerState :=
  let before := zscore st.board u
  let r := zincrby st.board amt u
  { board := r.2,
    transactions := st.transactions ++
      [{ userId := u, actionId := aid, scoreBefore := before,
         scoreAfter := r.1, scoreAwarded := amt }] }

/-- Run a sequence of `apply` calls `(userId, scoreAwarded, actionId)`. -/
def runApplies (st : LedgerState) : List (String × Int × String) → LedgerState
  | [] => st
  | (u, amt, aid) :: rest => runApplies (applyScore st u amt aid) rest

/-- Sum of `scoreAwarded` over one user's recorded transactions. -/
def awardSum (u : String) (txs : List ScoreTransaction) : Int :=
  ((txs.filter (fun tx => tx.userId = u)).map (fun tx => tx.scoreAwarded)).sum

/-- Sum of the awards a sequence of `apply` calls carries for one user. -/
def callSum (u : String) (subs : List (String × Int × String)) : Int :=
  ((subs.filter (fun s => s.1 = u)).map (fun s => s.2.1)).sum

theorem zscore_zset_self (b : List (String × Int)) (u : String) (v : Int) :
    zscore (zset b u v) u = v := by
  induction b with
  | nil => simp [zset, zscore]
  | cons p rest ih =>
      by_cases h : p.1 = u
      · simp [zset, h, zscore]
      · simp [zset, h, zscore, ih]

theorem zscore_zset_other (b : List (String × Int)) (u w : String) (v : Int)
    (h : w ≠ u) : zscore (zset b u v) w = zscore b w := by
  induction b with
  | nil => simp [zset, zscore, Ne.symm h]
  | cons p rest ih =>
      by_cases hp : p.1 = u
      · simp [zset, hp, zscore, Ne.symm h]
      · simp [zset, hp, zscore, ih]

theorem runApplies_zscore (u : String) :
    ∀ (subs : List (String × Int × String)) (st : LedgerState),
      zscore (runApplies st subs).board u = zscore st.board u + callSum u subs := by
  intro subs
  induction subs with
  | nil => intro st; simp [runApplies, callSum]
  | cons s rest ih =>
      intro st
      obtain ⟨v, amt, aid⟩ := s
      simp only [runApplies]
      rw [ih]
      by_cases h : v = u
      · subst h
        simp only [applyScore, zincrby, zscore_zset_self, callSum,
          List.filter_cons]
        simp [callSum]
        ring
      · have : zscore (applyScore st v amt aid).board u = zscore st.board u := by
          simp only [applyScore, zincrby]
          exact zscore_zset_other st.board v u _ (Ne.symm h)
        rw [this]
        simp only [callSum, List.filter_cons]
        simp [h]

theorem runApplies_awardSum (u : String) :
    ∀ (subs : List (String × Int × String)) (st : LedgerState),
      awardSum u (runApplies st subs).transactions =
        awardSum u st.transactions + callSum u subs := by
  intro subs
  induction subs with
  | nil => intro st; simp [runApplies, callSum]
  | cons s rest ih =>
      intro st
      obtain ⟨v, amt, aid⟩ := s
      simp only [runApplies]
      rw [ih]
      have happ : awardSum u (applyScore st v amt aid).transactions =
          awardSum u st.transactions + (if v = u then amt else 0) := by
        simp only [applyScore, awardSum, List.filter_append, List.map_append,
          List.sum_append, List.filter_cons]
        by_cases h : v = u
        · simp [h]
        · simp [h]
      rw [happ]
      simp only [callSum, List.filter_cons]
      by_cases h : v = u
      · simp [h, callSum]
        ring
      · simp [h, callSum]

theorem callSum_perm (u : String) (l1 l2 : List (String × Int × String))
    (h : l1.Perm l2) : callSum u l1 = callSum u l2 := by
  unfold callSum
  exact ((h.filter _).map _).sum_eq

end Problem6

/-- C4: for every sequence of `apply` calls starting from the empty ledger,
every user's total score equals the sum of `scoreAwarded` over that user's
recorded transactions, and any reordering (modelling a different arrival
order of concurrent `apply` calls, each `zincrby` being atomic) yields the
same final total. -/
theorem ledger_total_is_transaction_sum
    (subs : List (String × Int × String)) (u : String) :
    Problem6.zscore (Problem6.runApplies Problem6.LedgerState.empty
        subs).board u =
      Problem6.awardSum u (Problem6.runApplies Problem6.LedgerState.empty
        subs).transactions ∧
    ∀ subs2, subs.Perm subs2 →
      Problem6.zscore (Problem6.runApplies Problem6.LedgerState.empty
          subs).board u =
        Problem6.zscore (Problem6.runApplies Problem6.LedgerState.empty
          subs2).board u := by
  constructor
  · rw [Problem6.runApplies_zscore, Problem6.runApplies_awardSum]
    simp [Problem6.LedgerState.empty, Problem6.zscore, Problem6.awardSum]
  · intro subs2 hperm
    rw [Problem6.runApplies_zscore, Problem6.runApplies_zscore]
    rw [Problem6.callSum_perm u subs subs2 hperm]

/-- Witness for C4 at a concrete call sequence and a reordering of it. -/
theorem ledger_total_is_transaction_sum_witness :
    Problem6.zscore (Problem6.runApplies Problem6.LedgerState.empty
        [("a", 5, "x1"), ("b", 3, "x2"), ("a", 2, "x3")]).board "a" =
      Problem6.awardSum "a" (Problem6.runApplies Problem6.LedgerState.empty
        [("a", 5, "x1"), ("b", 3, "x2"), ("a", 2, "x3")]).transactions ∧
    Problem6.zscore (Problem6.runApplies Problem6.LedgerState.empty
        [("a", 5, "x1"), ("b", 3, "x2"), ("a", 2, "x3")]).board "a" =
      Problem6.zscore (Problem6.runApplies Problem6.LedgerState.empty
        [("a", 2, "x3"), ("a", 5, "x1"), ("b", 3, "x2")]).board "a" := by
  have h := ledger_total_is_transaction_sum
    [("a", 5, "x1"), ("b", 3, "x2"), ("a", 2, "x3")] "a"
  exact ⟨h.1, h.2 [("a", 2, "x3"), ("a", 5, "x1"), ("b", 3, "x2")] (by decide)⟩

namespace Problem6

/-- One member of the ranked index: userId, score, and the time of the last
score update. -/
structure RankEntry where
  userId : String
  score : Int
  lastUpdatedAt : Int
deriving Repr, DecidableEq

/-- Modelled from the spec: the repository's ranked retrieval is Redis
`zrevrange`, which is external and does not order ties by update time; the
spec adopts the ordering `(score desc, lastUpdatedAt asc)` (earlier
achievement of an equal score wins the higher rank). -/
def rankRel (a b : RankEntry) : Prop :=
  b.score < a.score ∨ (a.score = b.score ∧ a.lastUpdatedAt ≤ b.lastUpdatedAt)

instance : DecidableRel rankRel := fun a b => by
  unfold rankRel
  infer_instance

instance : IsTotal RankEntry rankRel := by
  constructor
  intro a b
  unfold rankRel
  omega

instance : IsTrans RankEntry rankRel := by
  constructor
  intro a b c hab hbc
  unfold rankRel at hab hbc ⊢
  omega

/-- One displayed leaderboard row (the spec's `RankSnapshot`). -/
structure RankSnapshot where
  rank : Nat
  userId : String
  score : Int
deriving Repr, DecidableEq

/-- Assign 1-based ranks in list order, the formatting loop of
`getLeaderboard` (`rank: (i / 2) + 1` over the flattened WITHSCORES
pairs). -/
def withRanks : Nat → List RankEntry → List RankSnapshot
  | _, [] => []
  | i, e :: rest =>
      { rank := i, userId := e.userId, score := e.score } :: withRanks (i + 1) rest

/-- Function `getLeaderboard(limit)` (the spec's `topK(k)`): the first `limit` members
of the ranked index in the spec-modelled order, formatted with 1-based
ranks. -/
def getLeaderboard (entries : List RankEntry) (limit : Nat) :
    List RankSnapshot :=
  withRanks 1 ((List.insertionSort rankRel entries).take limit)

/-- Operation `upsert(userId, newScore)` on the ranked index: overwrite the member's
score and update time, inserting the member if absent. -/
def upsertEntry : List RankEntry → String → Int → Int → List RankEntry
  | [], u, v, now => [{ userId := u, score := v, lastUpdatedAt := now }]
  | e :: rest, u, v, now =>
      if e.userId = u then { userId := u, score := v, lastUpdatedAt := now } :: rest
      else e :: upsertEntry rest u v now

/-- Run a sequence of upserts `(userId, newScore, time)`. -/
def runUpserts : List RankEntry → List (String × Int × Int) → List RankEntry
  | entries, [] => entries
  | entries, (u, v, now) :: rest => runUpserts (upsertEntry entries u v now) rest

theorem withRanks_map_rank :
    ∀ (l : List RankEntry) (i : Nat),
      (withRanks i l).map (fun s => s.rank) = List.range' i l.length := by
  intro l
  induction l with
  | nil => intro i; simp [withRanks]
  | cons e rest ih =>
      intro i
      simp only [withRanks, List.map_cons, List.length_cons, List.range'_succ]
      rw [ih]

theorem withRanks_map_fields :
    ∀ (l : List RankEntry) (i : Nat),
      (withRanks i l).map (fun s => (s.userId, s.score)) =
        l.map (fun e => (e.userId, e.score)) := by
  intro l
  induction l with
  | nil => intro i; simp [withRanks]
  | cons e rest ih =>
      intro i
      simp only [withRanks, List.map_cons]
      rw [ih]

theorem withRanks_length (l : List RankEntry) :
    ∀ i, (withRanks i l).length = l.length := by
  induction l with
  | nil => intro i; simp [withRanks]
  | cons e rest ih => intro i; simp [withRanks, ih]

end Problem6

/-- C6: after any sequence of upserts, the ranked take-10 underlying
`getLeaderboard(10)` is sorted by `(score desc, lastUpdatedAt asc)`, the
snapshots list exactly its members in order, and the `rank` fields are
exactly the 1-based positions `1, 2, ...`. -/
theorem leaderboard_sorted_and_positionally_ranked
    (ops : List (String × Int × Int)) :
    List.Sorted Problem6.rankRel
      ((List.insertionSort Problem6.rankRel
        (Problem6.runUpserts [] ops)).take 10) ∧
    (Problem6.getLeaderboard (Problem6.runUpserts [] ops) 10).map
        (fun s => (s.userId, s.score)) =
      ((List.insertionSort Problem6.rankRel
        (Problem6.runUpserts [] ops)).take 10).map
        (fun e => (e.userId, e.score)) ∧
    (Problem6.getLeaderboard (Problem6.runUpserts [] ops) 10).map
        (fun s => s.rank) =
      List.range' 1
        (Problem6.getLeaderboard (Problem6.runUpserts [] ops) 10).length := by
  refine ⟨?_, ?_, ?_⟩
  · exact List.Pairwise.sublist (List.take_sublist 10 _)
      (List.sorted_insertionSort Problem6.rankRel _)
  · exact Problem6.withRanks_map_fields _ 1
  · rw [Problem6.getLeaderboard, Problem6.withRanks_map_rank,
      Problem6.withRanks_length]

namespace Problem6

/-- The payload of a score change as broadcast by the README
(`score:update` data). -/
structure ScoreData where
  userId : String
  newScore : Int
  newRank : Nat
  previousRank : Nat
deriving Repr, DecidableEq

/-- What the `LeaderboardManager` emits to the `leaderboard` room. -/
inductive BroadcastEvent where
  | leaderboardUpdate (leaderboard : List RankSnapshot)
  | scoreUpdate (data : ScoreData)
deriving Repr, DecidableEq

/-- Predicate `checkTopTenChanged` from the README `LeaderboardManager`:
`scoreData.newRank <= 10 || scoreData.previousRank <= 10`. -/
def checkTopTenChanged (sd : ScoreData) : Bool :=
  sd.newRank ≤ 10 || sd.previousRank ≤ 10

/-- Function `broadcastScoreUpdate` from the README `LeaderboardManager`: a full
`leaderboard:update` refresh (the `getLeaderboard(10)` snapshot) when the
top ten changed, otherwise a targeted `score:update` carrying only the
affected user's data. -/
def broadcastScoreUpdate (entries : List RankEntry) (sd : ScoreData) :
    BroadcastEvent :=
  if checkTopTenChanged sd then
    BroadcastEvent.leaderboardUpdate (getLeaderboard entries 10)
  else
    BroadcastEvent.scoreUpdate sd

end Problem6

/-- C5: the coordinator emits a full `leaderboard:update` refresh exactly
when `newRank ≤ 10` or `previousRank ≤ 10` (the user entered or left the
top ten), and otherwise the targeted `score:update` naming only the affected
user; in particular any update with `newRank ≤ 10` — such as a user rising
from rank 11 into the top ten — triggers the full refresh. -/
theorem broadcast_full_refresh_iff (entries : List Problem6.RankEntry)
    (sd : Problem6.ScoreData) :
    (Problem6.broadcastScoreUpdate entries sd =
        Problem6.BroadcastEvent.leaderboardUpdate
          (Problem6.getLeaderboard entries 10) ↔
      (sd.newRank ≤ 10 ∨ sd.previousRank ≤ 10)) ∧
    (Problem6.broadcastScoreUpdate entries sd =
        Problem6.BroadcastEvent.scoreUpdate sd ↔
      ¬(sd.newRank ≤ 10 ∨ sd.previousRank ≤ 10)) := by
  unfold Problem6.broadcastScoreUpdate Problem6.checkTopTenChanged
  by_cases h1 : sd.newRank ≤ 10
  · simp [h1]
  · by_cases h2 : sd.previousRank ≤ 10
    · simp [h1, h2]
    · simp [h1, h2]

/-- Witness for C5: a user at previous rank 11 whose new rank is 10 gets a
full `leaderboard:update`; a user moving from rank 12 to rank 15 gets the
targeted `score:update`. -/
theorem broadcast_full_refresh_iff_witness :
    Problem6.broadcastScoreUpdate []
        { userId := "u", newScore := 500, newRank := 10, previousRank := 11 } =
      Problem6.BroadcastEvent.leaderboardUpdate
        (Problem6.getLeaderboard [] 10) ∧
    Problem6.broadcastScoreUpdate []
        { userId := "u", newScore := 5, newRank := 15, previousRank := 12 } =
      Problem6.BroadcastEvent.scoreUpdate
        { userId := "u", newScore := 5, newRank := 15, previousRank := 12 } := by
  constructor
  · exact (broadcast_full_refresh_iff []
      { userId := "u", newScore := 500, newRank := 10, previousRank := 11 }).1.mpr
      (by decide)
  · exact (broadcast_full_refresh_iff []
      { userId := "u", newScore := 5, newRank := 15, previousRank := 12 }).2.mpr
      (by decide)

namespace Problem6

/-- Counter store for the `rate_limit:<userId>` keys: key ↦ (count, absolute
TTL-expiry time in ms). -/
structure RateState where
  counters : List (String × Nat × Int)
deriving Repr, DecidableEq

/-- The empty counter store. -/
def RateState.empty : RateState := ⟨[]⟩

/-- The rate-limit key of a user: `rate_limit:<userId>`. -/
def rateKey (userId : String) : String := "rate_limit:" ++ userId

/-- Write a counter value and expiry, inserting the key if absent. -/
def setCounter : List (String × Nat × Int) → String → Nat → Int →
    List (String × Nat × Int)
  | [], k, v, e => [(k, v, e)]
  | p :: rest, k, v, e =>
      if p.1 = k then (k, v, e) :: rest else p :: setCounter rest k v e

/-- The README rate-limit pseudo-code at time `now`: `redis.incr(key)`
(which restarts an absent or TTL-elapsed key at 1), followed by
`redis.expire(key, 60)` when the increment produced 1. Returns the counter
value `current` and the updated store. -/
def rateLimitStep (st : RateState) (userId : String) (now : Int) :
    Nat × RateState :=
  let key := rateKey userId
  match st.counters.find? (fun p => p.1 = key) with
  | some p =>
      if now < p.2.2 then
        (p.2.1 + 1, ⟨setCounter st.counters key (p.2.1 + 1) p.2.2⟩)
      else
        (1, ⟨setCounter st.counters key 1 (now + 60000)⟩)
  | none => (1, ⟨setCounter st.counters key 1 (now + 60000)⟩)

/-- The fixed 429 body documented in the README:
`{error: "RATE_LIMIT_EXCEEDED", retryAfter: 60}`. -/
structure RateLimitResponse where
  error : String
  retryAfter : Nat
deriving Repr, DecidableEq

/-- The constant denial body of the README. -/
def rateLimitExceededResponse : RateLimitResponse :=
  { error := "RATE_LIMIT_EXCEEDED", retryAfter := 60 }

/-- One `POST /scores/submit` through the rate limiter and the ledger: the
counter is incremented, the submission is denied with the fixed 429 body
when `current > 10` (leaving the ledger untouched), and otherwise the score
is applied. -/
def submitWithRateLimit (rate : RateState) (ledger : LedgerState)
    (u : String) (amt : Int) (aid : String) (now : Int) :
    Option RateLimitResponse × RateState × LedgerState :=
  let r := rateLimitStep rate u now
  if r.1 > 10 then (some rateLimitExceededResponse, r.2, ledger)
  else (none, r.2, applyScore ledger u amt aid)

/-- Remaining time (ms) of the live rate-limit window of user `u`. -/
def windowRemaining (st : RateState) (u : String) (now : Int) : Int :=
  match st.counters.find? (fun p => p.1 = rateKey u) with
  | some p => if now < p.2.2 then p.2.2 - now else 0
  | none => 0

/-- Run `n` identical submissions for user `u` at time `now`, returning the
counter store, the ledger, and the response of the last submission. -/
def runSubmits (u : String) (amt : Int) (aid : String) (now : Int) :
    Nat → RateState × LedgerState × Option RateLimitResponse
  | 0 => (RateState.empty, LedgerState.empty, none)
  | n + 1 =>
      let prev := runSubmits u amt aid now n
      let r := submitWithRateLimit prev.1 prev.2.1 u amt aid now
      (r.2.1, r.2.2, r.1)

theorem find?_setCounter_self (l : List (String × Nat × Int)) (k : String)
    (v : Nat) (e : Int) :
    (setCounter l k v e).find? (fun p => p.1 = k) = some (k, v, e) := by
  induction l with
  | nil => simp [setCounter]
  | cons p rest ih =>
      by_cases h : p.1 = k
      · simp [setCounter, h]
      · simp [setCounter, h, ih]

theorem runSubmits_succ_def (u : String) (amt : Int) (aid : String)
    (now : Int) (n : Nat) :
    runSubmits u amt aid now (n + 1) =
      ((submitWithRateLimit (runSubmits u amt aid now n).1
          (runSubmits u amt aid now n).2.1 u amt aid now).2.1,
       (submitWithRateLimit (runSubmits u amt aid now n).1
          (runSubmits u amt aid now n).2.1 u amt aid now).2.2,
       (submitWithRateLimit (runSubmits u amt aid now n).1
          (runSubmits u amt aid now n).2.1 u amt aid now).1) := rfl

theorem runSubmits_counter (u : String) (amt : Int) (aid : String) (t0 : Int) :
    ∀ n, 1 ≤ n →
      (runSubmits u amt aid t0 n).1.counters.find?
        (fun p => p.1 = rateKey u) = some (rateKey u, n, t0 + 60000) := by
  intro n
  induction n with
  | zero => intro h; omega
  | succ m ih =>
      intro _
      match m, ih with
      | 0, _ =>
          simp [runSubmits, submitWithRateLimit, rateLimitStep,
            RateState.empty, LedgerState.empty, find?_setCounter_self]
      | m + 1, ih =>
          have hm := ih (by omega)
          rw [runSubmits_succ_def]
          simp only [submitWithRateLimit, rateLimitStep, hm]
          rw [if_pos (by omega : t0 < t0 + 60000)]
          by_cases hge : m + 1 + 1 > 10
          · simp [hge, find?_setCounter_self]
          · simp [hge, find?_setCounter_self]

theorem runSubmits_step (u : String) (amt : Int) (aid : String) (t0 : Int)
    (n : Nat) (hn : 1 ≤ n) :
    runSubmits u amt aid t0 (n + 1) =
      (if n + 1 > 10 then
        (⟨setCounter (runSubmits u amt aid t0 n).1.counters (rateKey u)
          (n + 1) (t0 + 60000)⟩,
         (runSubmits u amt aid t0 n).2.1, some rateLimitExceededResponse)
      else
        (⟨setCounter (runSubmits u amt aid t0 n).1.counters (rateKey u)
          (n + 1) (t0 + 60000)⟩,
         applyScore (runSubmits u amt aid t0 n).2.1 u amt aid, none)) := by
  have hm := runSubmits_counter u amt aid t0 n hn
  show (let prev := runSubmits u amt aid t0 n
        let r := submitWithRateLimit prev.1 prev.2.1 u amt aid t0
        (r.2.1, r.2.2, r.1)) = _
  simp only [submitWithRateLimit, rateLimitStep, hm]
  rw [if_pos (by omega : t0 < t0 + 60000)]
  by_cases hge : n + 1 > 10
  · simp [hge]
  · simp [hge]

end Problem6

/-- C7 counterexample: the claim says the `retryAfter` returned on denial
equals the remaining time of the shortest exceeded window, but the README's
429 body carries the fixed constant 60: after 10 submissions at time 0, an
11th submission at time 30000 ms is denied while the window has 30000 ms
(30 s) remaining, yet the response still says `retryAfter = 60` seconds. -/
theorem rate_limit_retryAfter_counterexample :
    (Problem6.submitWithRateLimit
        (Problem6.runSubmits "u" 5 "a" 0 10).1
        (Problem6.runSubmits "u" 5 "a" 0 10).2.1 "u" 5 "a" 30000).1 =
      some Problem6.rateLimitExceededResponse ∧
    Problem6.windowRemaining (Problem6.runSubmits "u" 5 "a" 0 10).1 "u" 30000
      = 30000 ∧
    (Problem6.rateLimitExceededResponse.retryAfter : Int) * 1000 ≠ 30000 := by
  refine ⟨?_, ?_, ?_⟩
  · rfl
  · rfl
  · decide

/-- C7 (amended): with the per-user limit of 10 per minute, each of a user's
first 10 submissions in a window is allowed, the 11th submission within the
window is denied with the `RATE_LIMIT_EXCEEDED` body, the denied submission
leaves the ledger untouched, and the returned `retryAfter` is the fixed
window length of 60 seconds (not the remaining window time). -/
theorem rate_limit_eleventh_denied (u : String) (amt : Int) (aid : String)
    (t0 : Int) (k : Nat) (hk1 : 1 ≤ k) (hk10 : k ≤ 10) :
    (Problem6.runSubmits u amt aid t0 11).2.2 =
      some Problem6.rateLimitExceededResponse ∧
    (Problem6.runSubmits u amt aid t0 11).2.1 =
      (Problem6.runSubmits u amt aid t0 10).2.1 ∧
    Problem6.rateLimitExceededResponse.retryAfter = 60 ∧
    (Problem6.runSubmits u amt aid t0 k).2.2 = none := by
  refine ⟨?_, ?_, rfl, ?_⟩
  · rw [show (11 : Nat) = 10 + 1 from rfl,
      Problem6.runSubmits_step u amt aid t0 10 (by omega)]
    simp
  · rw [show (11 : Nat) = 10 + 1 from rfl,
      Problem6.runSubmits_step u amt aid t0 10 (by omega)]
    simp
  · match k, hk1 with
    | 1, _ =>
        simp [Problem6.runSubmits, Problem6.submitWithRateLimit,
          Problem6.rateLimitStep, Problem6.RateState.empty,
          Problem6.LedgerState.empty]
    | m + 2, _ =>
        rw [Problem6.runSubmits_step u amt aid t0 (m + 1) (by omega)]
        rw [if_neg (by omega : ¬ m + 1 + 1 > 10)]

/-- Witness for the amended C7 at concrete user, amount, and times. -/
theorem rate_limit_eleventh_denied_witness :
    (Problem6.runSubmits "u" 5 "a" 0 11).2.2 =
      some Problem6.rateLimitExceededResponse ∧
    (Problem6.runSubmits "u" 5 "a" 0 11).2.1 =
      (Problem6.runSubmits "u" 5 "a" 0 10).2.1 ∧
    Problem6.rateLimitExceededResponse.retryAfter = 60 ∧
    (Problem6.runSubmits "u" 5 "a" 0 3).2.2 = none :=
  rate_limit_eleventh_denied "u" 5 "a" 0 3 (by decide) (by decide)

namespace Problem5

/-- A row of the `resources` table of problem5. Timestamps are modelled as
integers; nullable columns as `Option`. -/
structure Resource where
  id : Int
  name : String
  description : Option String
  category : Option String
  status : String
  created_at : Int
  updated_at : Int
deriving Repr, DecidableEq

/-- Input type `UpdateResourceInput`: every field optional; an absent (`undefined`)
field is `none`. -/
structure UpdateResourceInput where
  name : Option String := none
  description : Option String := none
  category : Option String := none
  status : Option String := none
deriving Repr, DecidableEq

/-- Query `getById`: `SELECT * FROM resources WHERE id = ?`, first matching row or
null. -/
def getById (db : List Resource) (id : Int) : Option Resource :=
  db.find? (fun r => r.id = id)

/-- The dynamic `UPDATE resources SET ...` of `ResourceService.update`
applied to one row: each supplied field overwrites, and
`updated_at = CURRENT_TIMESTAMP`. -/
def applyUpdate (r : Resource) (inp : UpdateResourceInput) (now : Int) :
    Resource :=
  { r with
    name := inp.name.getD r.name,
    description := if inp.description.isSome then inp.description
      else r.description,
    category := if inp.category.isSome then inp.category else r.category,
    status := inp.status.getD r.status,
    updated_at := now }

/-- Function `ResourceService.update(id, resource)`: if no field is supplied it runs
no UPDATE and returns the current row (`getById`); otherwise it updates the
matching row's supplied fields plus `updated_at`, and returns the row
re-read after the write. -/
def update (db : List Resource) (id : Int) (inp : UpdateResourceInput)
    (now : Int) : Option Resource × List Resource :=
  if inp.name = none ∧ inp.description = none ∧ inp.category = none ∧
      inp.status = none then
    (getById db id, db)
  else
    let db2 := db.map (fun r => if r.id = id then applyUpdate r inp now else r)
    (getById db2 id, db2)

theorem applyUpdate_id (r : Resource) (inp : UpdateResourceInput) (now : Int) :
    (applyUpdate r inp now).id = r.id := rfl

theorem getById_map_update (db : List Resource) (id : Int)
    (inp : UpdateResourceInput) (now : Int) :
    getById (db.map (fun r => if r.id = id then applyUpdate r inp now else r))
        id =
      (getById db id).map (fun r => applyUpdate r inp now) := by
  induction db with
  | nil => simp [getById]
  | cons r rest ih =>
      by_cases h : r.id = id
      · simp [getById, List.find?, h, applyUpdate_id]
      · have hd : decide (r.id = id) = false := decide_eq_false h
        simp only [List.map_cons, getById, List.find?] at ih ⊢
        simp only [if_neg h, hd]
        exact ih

end Problem5

/-- C10: `ResourceService.update` is frame-preserving. For a stored
resource, an update with no supplied fields performs no database write and
returns the stored row unchanged; a partial update returns the row with
exactly the supplied fields overwritten and `updated_at` set to the write
time, every unsupplied field keeping its prior value (`id` and `created_at`
always kept); and every row with a different id is untouched. -/
theorem resource_update_frame (db : List Problem5.Resource) (id : Int)
    (inp : Problem5.UpdateResourceInput) (now : Int) (r : Problem5.Resource)
    (hr : Problem5.getById db id = some r) :
    Problem5.update db id {} now = (some r, db) ∧
    (¬(inp.name = none ∧ inp.description = none ∧ inp.category = none ∧
        inp.status = none) →
      (Problem5.update db id inp now).1 =
        some (Problem5.applyUpdate r inp now)) ∧
    (Problem5.applyUpdate r inp now).id = r.id ∧
    (Problem5.applyUpdate r inp now).created_at = r.created_at ∧
    (Problem5.applyUpdate r inp now).updated_at = now ∧
    (inp.name = none → (Problem5.applyUpdate r inp now).name = r.name) ∧
    (∀ v, inp.name = some v → (Problem5.applyUpdate r inp now).name = v) ∧
    (inp.description = none →
      (Problem5.applyUpdate r inp now).description = r.description) ∧
    (∀ v, inp.description = some v →
      (Problem5.applyUpdate r inp now).description = some v) ∧
    (inp.category = none →
      (Problem5.applyUpdate r inp now).category = r.category) ∧
    (∀ v, inp.category = some v →
      (Problem5.applyUpdate r inp now).category = some v) ∧
    (inp.status = none → (Problem5.applyUpdate r inp now).status = r.status) ∧
    (∀ v, inp.status = some v → (Problem5.applyUpdate r inp now).status = v) ∧
    ∀ x ∈ db, x.id ≠ id → x ∈ (Problem5.update db id inp now).2 := by
  refine ⟨?_, ?_, rfl, rfl, rfl, ?_, ?_, ?_, ?_, ?_, ?_, ?_, ?_, ?_⟩
  · simp [Problem5.update, hr]
  · intro h
    unfold Problem5.update
    rw [if_neg h]
    show Problem5.getById (db.map fun r =>
      if r.id = id then Problem5.applyUpdate r inp now else r) id = _
    rw [Problem5.getById_map_update, hr]
    rfl
  · intro h; simp [Problem5.applyUpdate, h]
  · intro v h; simp [Problem5.applyUpdate, h]
  · intro h; simp [Problem5.applyUpdate, h]
  · intro v h; simp [Problem5.applyUpdate, h]
  · intro h; simp [Problem5.applyUpdate, h]
  · intro v h; simp [Problem5.applyUpdate, h]
  · intro h; simp [Problem5.applyUpdate, h]
  · intro v h; simp [Problem5.applyUpdate, h]
  · intro x hx hxid
    unfold Problem5.update
    by_cases hall : inp.name = none ∧ inp.description = none ∧
        inp.category = none ∧ inp.status = none
    · rw [if_pos hall]; exact hx
    · rw [if_neg hall]
      show x ∈ List.map (fun r =>
        if r.id = id then Problem5.applyUpdate r inp now else r) db
      exact List.mem_map.mpr ⟨x, hx, if_neg hxid⟩

/-- Witness for C10 mirroring the repository's tests: a stored resource, a
no-field update, and a name-only update. -/
theorem resource_update_frame_witness :
    Problem5.update
        [{ id := 1, name := "Original Name",
           description := some "Original Description",
           category := some "original", status := "active",
           created_at := 100, updated_at := 100 }] 1 {} 200 =
      (some { id := 1, name := "Original Name",
              description := some "Original Description",
              category := some "original", status := "active",
              created_at := 100, updated_at := 100 },
       [{ id := 1, name := "Original Name",
          description := some "Original Description",
          category := some "original", status := "active",
          created_at := 100, updated_at := 100 }]) ∧
    (Problem5.update
        [{ id := 1, name := "Original Name",
           description := some "Original Description",
           category := some "original", status := "active",
           created_at := 100, updated_at := 100 }] 1
        { name := some "Updated Name" } 200).1 =
      some { id := 1, name := "Updated Name",
             description := some "Original Description",
             category := some "original", status := "active",
             created_at := 100, updated_at := 200 } := by
  have h := resource_update_frame
    [{ id := 1, name := "Original Name",
       description := some "Original Description",
       category := some "original", status := "active",
       created_at := 100, updated_at := 100 }] 1
    { name := some "Updated Name" } 200
    { id := 1, name := "Original Name",
      description := some "Original Description",
      category := some "original", status := "active",
      created_at := 100, updated_at := 100 } (by rfl)
  refine ⟨h.1, ?_⟩
  have h2 := h.2.1 (by simp)
  rw [h2]
  rfl

/-- C1: token consumption is exactly-once. For a valid token that is
unexpired and unused at time `t1`, `validate` succeeds; a second `validate`
of the same token at any time `t2` at which the token is still unexpired
returns `REPLAYED_ACTION`; and over an arbitrary run of submissions (from any
marker store) in which all submissions carrying a given `actionId` carry the
issue timestamp of that token and are submitted no earlier than issuance, at
most one submission with that `actionId` succeeds — hence at most one
`ScoreTransaction` ever exists for it. -/
theorem token_consumed_exactly_once
    (secret : String) (tok : Problem6.ActionToken) (st : Problem6.RedisState)
    (t1 t2 : Int)
    (hsig : Problem6.isValidSignature secret tok = true)
    (hfresh1 : Problem6.isNotExpired t1 tok = true)
    (hfresh2 : Problem6.isNotExpired t2 tok = true)
    (hunused : Problem6.redisExists st (Problem6.actionKey tok.actionId) t1
      = false)
    (hiss : tok.timestamp ≤ t1) :
    (Problem6.validate secret st t1 tok).1 =
      Except.ok (tok.userId, tok.expectedScore) ∧
    (Problem6.validate secret (Problem6.validate secret st t1 tok).2 t2 tok).1
      = Except.error Problem6.ActionError.REPLAYED_ACTION ∧
    ∀ (st0 : Problem6.RedisState) (subs : List (Int × Problem6.ActionToken)),
      (∀ p ∈ subs, ∀ q ∈ subs, p.2.actionId = tok.actionId →
        q.2.actionId = tok.actionId → p.2.timestamp = q.2.timestamp) →
      (∀ p ∈ subs, p.2.timestamp ≤ p.1) →
      Problem6.okCount tok.actionId (Problem6.runValidates secret st0 subs)
        ≤ 1 := by
  have h1 : Problem6.validate secret st t1 tok =
      (Except.ok (tok.userId, tok.expectedScore),
       Problem6.setUsed st (Problem6.actionKey tok.actionId) t1) := by
    unfold Problem6.validate
    simp [hsig, hfresh1, hunused]
  refine ⟨by rw [h1], ?_, ?_⟩
  · have hfr2 : t2 - tok.timestamp < 600000 := by
      simpa [Problem6.isNotExpired] using hfresh2
    have hex : Problem6.redisExists
        (Problem6.setUsed st (Problem6.actionKey tok.actionId) t1)
        (Problem6.actionKey tok.actionId) t2 = true := by
      simp only [Problem6.redisExists, Problem6.getMarker_setUsed_self]
      simp only [decide_eq_true_eq]
      unfold Problem6.markerTTL
      omega
    rw [h1]
    unfold Problem6.validate
    simp [hsig, hfresh2, hex]
  · intro st0 subs hsame hiss'
    exact Problem6.okCount_le_one secret tok.actionId subs st0 hsame hiss'

/-- Witness for C1 at a concrete token, store, and two-submission run. -/
theorem token_consumed_exactly_once_witness :
    (Problem6.validate "k" Problem6.RedisState.empty 0 Problem6.tok1).1 =
      Except.ok ("u1", 100) ∧
    (Problem6.validate "k"
      (Problem6.validate "k" Problem6.RedisState.empty 0 Problem6.tok1).2 1
      Problem6.tok1).1 =
      Except.error Problem6.ActionError.REPLAYED_ACTION ∧
    Problem6.okCount "a1" (Problem6.runValidates "k" Problem6.RedisState.empty
      [(0, Problem6.tok1), (1, Problem6.tok1)]) ≤ 1 := by
  have h := token_consumed_exactly_once "k" Problem6.tok1
    Problem6.RedisState.empty 0 1 (by decide) (by decide) (by decide)
    (by decide) (by decide)
  exact ⟨h.1, h.2.1,
    h.2.2 Problem6.RedisState.empty [(0, Problem6.tok1), (1, Problem6.tok1)]
      (by decide) (by decide)⟩
